import Mathlib

/-
Shallow embedding of the lcc_dbupdater reconciliation/enrichment pipeline.

Sources embedded:
  - src/services.js        : standardizeResult, getLatestRoundNumber, fetchCommentary
  - src/updateDatabase.js  : fetchCommentaryWithRetry, updateGame (current variant)
  - src/unnamed/part_000   : updateGame (historical variant with the three-way
                             NoChange / metadata-only / full-update decision)

The MongoDB collection is modelled as a `List StoredGame`; `findOne` and the
single `updateOne … upsert` are modelled explicitly.  External backends
(commentary HTTP API, image generation) are modelled as oracles passed in as
parameters, and every observable effect of one `updateGame` cycle (writes,
HTTP request counts, image calls, retry delays, the appended commentary) is
returned in an `Effects` record.
-/

namespace LccDbUpdater

/-- A commentary entry `{commentary, stockfishEval}` as built by
fetchCommentary (src/services.js:483-486) and by the checkmate short-circuit
(src/updateDatabase.js:227-230). -/
structure Commentary where
  commentary : String
  stockfishEval : Int
deriving DecidableEq

/-- The normalized game state produced by getGameState (src/services.js:129-144):
the scalar fields that updateGame spreads into its `$set`. -/
structure GameState where
  gameId : String
  round : Nat
  latestFEN : String
  fenBeforeLastMove : String
  lastMove : String
  whiteName : String
  blackName : String
  latestPGN : String
  result : String
  isLive : Bool
deriving DecidableEq

/-- One persisted document of the store collection: the GameState scalars plus
tournamentId, lastUpdated, the append-only commentaries array and the optional
imageMediaId. -/
structure StoredGame where
  gameId : String
  tournamentId : String
  round : Nat
  latestFEN : String
  fenBeforeLastMove : String
  lastMove : String
  whiteName : String
  blackName : String
  latestPGN : String
  result : String
  isLive : Bool
  lastUpdated : Nat
  commentaries : List Commentary
  imageMediaId : Option String
deriving DecidableEq

/-- One entry of the tournament document's `rounds` array (count of recorded
games and count of live games), as consumed by getLatestRoundNumber
(src/services.js:49-64). -/
structure Round where
  count : Nat
  live : Nat
deriving DecidableEq

/-- JavaScript's String.prototype.toUpperCase restricted to the ASCII feed
vocabulary: uppercase every character. -/
def toUpperAscii (s : String) : String := String.mk (s.data.map Char.toUpper)

/-- standardizeResult (src/services.js:28-42).  JavaScript `null`/`undefined`
is modelled as `none`; the switch is on `result.toUpperCase()`. -/
def standardizeResult (result : Option String) : String :=
  match result with
  | none => "ongoing"
  | some r =>
    if toUpperAscii r = "WHITEWIN" then "1-0"
    else if toUpperAscii r = "BLACKWIN" then "0-1"
    else if toUpperAscii r = "DRAW" then "1/2-1/2"
    else if toUpperAscii r = "1-0" then "1-0"
    else if toUpperAscii r = "0-1" then "0-1"
    else if toUpperAscii r = "1/2-1/2" then "1/2-1/2"
    else "unknown"

/-- One step of the reduce in getLatestRoundNumber (src/services.js:55-57):
the accumulator carries (latest, index); a round with `count > 0` replaces
`latest` by its own 1-based index. -/
def roundStep (acc : Nat × Nat) (r : Round) : Nat × Nat :=
  (if r.count > 0 then acc.2 + 1 else acc.1, acc.2 + 1)

/-- getLatestRoundNumber (src/services.js:49-64): `rounds.reduce((latest,
round, index) => round.count > 0 ? index + 1 : latest, 0)`. -/
def getLatestRoundNumber (rounds : List Round) : Nat :=
  (rounds.foldl roundStep (0, 0)).1

/-- The FEN string of the standard starting position, compared against
literally in fetchCommentary (src/services.js:444). -/
def startingPositionFEN : String :=
  "rnbqkbnr/pppppppp/8/8/8/8/PPPPPPPP/RNBQKBNR w KQkq - 0 1"

/-- What the commentary HTTP backend does on one request, seen through the
checks of fetchCommentary (src/services.js:459-486): a success carries the
commentary text and a numeric stockfish_eval; `errorField` is a response with
a `data.error` field; `missingFields` lacks `commentary` or a numeric
`stockfish_eval`; `networkError` is a request that throws (caught inside
fetchCommentary). -/
inductive ApiResponse where
  | success (text : String) (eval : Int)
  | errorField
  | missingFields
  | networkError
deriving DecidableEq

/-- Whether the backend response passes fetchCommentary's validity checks. -/
def ApiResponse.valid : ApiResponse → Bool
  | .success _ _ => true
  | _ => false

/-- fetchCommentary (src/services.js:443-501) for one call, given the backend
response.  Returns the parsed commentary (or `none`) paired with the number of
HTTP requests issued (0 for the starting-position short-circuit, 1 otherwise).
All failure modes — error field, missing fields, thrown request — are caught
and yield `none`; this function never propagates an exception. -/
def fetchCommentary (resp : ApiResponse) (latestFEN : String) :
    Option Commentary × Nat :=
  if latestFEN = startingPositionFEN then (none, 0)
  else
    match resp with
    | .success t e => (some { commentary := t, stockfishEval := e }, 1)
    | .errorField => (none, 1)
    | .missingFields => (none, 1)
    | .networkError => (none, 1)

/-- The observable result of one `fetchCommentary` call at the boundary of
fetchCommentaryWithRetry: either a returned value (possibly null) or a thrown
exception. -/
inductive AttemptOutcome where
  | value (c : Option Commentary)
  | thrown
deriving DecidableEq

/-- The trace of one fetchCommentaryWithRetry run: the returned commentary
(`none` both for the fall-out-of-the-loop null return), whether the final
attempt's exception was rethrown, how many attempts ran, the backoff delays
actually awaited (in ms), and how many HTTP requests were issued. -/
structure RetryTrace where
  result : Option Commentary
  raised : Bool
  attempts : Nat
  delaysMs : List Nat
  httpRequests : Nat
deriving DecidableEq

/-- The loop of fetchCommentaryWithRetry (src/updateDatabase.js:73-131),
structurally recursive on the number of remaining iterations.  `att i` is the
outcome of the fetchCommentary call of 0-based attempt `i`, `req i` the number
of HTTP requests that call issued.  A null value hits the `continue` at
line 87 (no delay); a thrown error on the final attempt (`i === retries - 1`,
line 118) is rethrown, on an earlier attempt it awaits `5000 * (i + 1)` ms
(line 123) and retries. -/
def fetchCommentaryWithRetryAux (att : Nat → AttemptOutcome) (req : Nat → Nat) :
    Nat → Nat → List Nat → Nat → RetryTrace
  | 0, i, delays, reqs =>
    { result := none, raised := false, attempts := i, delaysMs := delays,
      httpRequests := reqs }
  | remaining + 1, i, delays, reqs =>
    match att i with
    | .value (some c) =>
      { result := some c, raised := false, attempts := i + 1,
        delaysMs := delays, httpRequests := reqs + req i }
    | .value none =>
      fetchCommentaryWithRetryAux att req remaining (i + 1) delays (reqs + req i)
    | .thrown =>
      if remaining = 0 then
        { result := none, raised := true, attempts := i + 1,
          delaysMs := delays, httpRequests := reqs + req i }
      else
        fetchCommentaryWithRetryAux att req remaining (i + 1)
          (delays ++ [5000 * (i + 1)]) (reqs + req i)

/-- fetchCommentaryWithRetry (src/updateDatabase.js:73-131) with the default
`retries = 3`, parametrized by the behavior of each fetchCommentary call. -/
def fetchCommentaryWithRetry (att : Nat → AttemptOutcome) (req : Nat → Nat)
    (retries : Nat) : RetryTrace :=
  fetchCommentaryWithRetryAux att req retries 0 [] 0

/-- The attempt behavior obtained by plugging the real fetchCommentary
(src/services.js) into the retry loop, given the backend's per-attempt
responses: it never throws. -/
def attemptVia (api : Nat → ApiResponse) (fen : String) :
    Nat → AttemptOutcome :=
  fun i => .value (fetchCommentary (api i) fen).1

/-- HTTP requests issued by attempt `i` when the real fetchCommentary runs. -/
def requestsVia (api : Nat → ApiResponse) (fen : String) : Nat → Nat :=
  fun i => (fetchCommentary (api i) fen).2

/-- fetchCommentaryWithRetry as composed in the program: the loop over the
real fetchCommentary with 3 retries. -/
def fetchCommentaryWithRetryHttp (api : Nat → ApiResponse) (fen : String) :
    RetryTrace :=
  fetchCommentaryWithRetry (attemptVia api fen) (requestsVia api fen) 3

/-- collection.findOne({gameId, tournamentId}) (src/updateDatabase.js:204-207):
first document matching both keys. -/
def findOne (store : List StoredGame) (gid tid : String) : Option StoredGame :=
  store.find? (fun d => d.gameId == gid && d.tournamentId == tid)

/-- MongoDB updateOne with upsert: replace the first document matching the
filter `p` by its updated image `f`, or append the freshly built document
`ins` when no document matches. -/
def updateFirst {α : Type} (p : α → Bool) (f : α → α) (ins : α) :
    List α → List α
  | [] => [ins]
  | d :: rest => if p d then f d :: rest else d :: updateFirst p f ins rest

/-- The `$set` of the current updateGame (src/updateDatabase.js:209-215 and
246-248) applied to an existing document: `lastUpdated`, `tournamentId`, the
whole spread of the fetched GameState, and `imageMediaId` when an image was
obtained.  `commentaries` is untouched by `$set`. -/
def setAllFields (gs : GameState) (tid : String) (now : Nat)
    (imgId : Option String) (d : StoredGame) : StoredGame :=
  { gameId := gs.gameId
    tournamentId := tid
    round := gs.round
    latestFEN := gs.latestFEN
    fenBeforeLastMove := gs.fenBeforeLastMove
    lastMove := gs.lastMove
    whiteName := gs.whiteName
    blackName := gs.blackName
    latestPGN := gs.latestPGN
    result := gs.result
    isLive := gs.isLive
    lastUpdated := now
    commentaries := d.commentaries
    imageMediaId := match imgId with | some m => some m | none => d.imageMediaId }

/-- The `$push: {commentaries: …}` of updateGame (src/updateDatabase.js:236):
appends the new entry to the stored sequence. -/
def pushCommentary (c : Option Commentary) (d : StoredGame) : StoredGame :=
  match c with
  | some entry => { d with commentaries := d.commentaries ++ [entry] }
  | none => d

/-- The document MongoDB builds on the upsert-insert path: filter equality
fields plus `$set` fields; `$push` on a missing array creates it. -/
def insertedDoc (gs : GameState) (tid : String) (now : Nat)
    (imgId : Option String) (c : Option Commentary) : StoredGame :=
  { gameId := gs.gameId
    tournamentId := tid
    round := gs.round
    latestFEN := gs.latestFEN
    fenBeforeLastMove := gs.fenBeforeLastMove
    lastMove := gs.lastMove
    whiteName := gs.whiteName
    blackName := gs.blackName
    latestPGN := gs.latestPGN
    result := gs.result
    isLive := gs.isLive
    lastUpdated := now
    commentaries := match c with | some entry => [entry] | none => []
    imageMediaId := imgId }

/-- The single write of the current updateGame (src/updateDatabase.js:252):
`collection.updateOne({ gameId: gameState.gameId }, update, { upsert: true })`
— note the filter is by gameId ALONE, not by the (gameId, tournamentId) pair
used by the findOne at lines 204-207. -/
def writeFull (gs : GameState) (tid : String) (now : Nat)
    (imgId : Option String) (c : Option Commentary)
    (store : List StoredGame) : List StoredGame :=
  updateFirst (fun d => d.gameId == gs.gameId)
    (fun d => pushCommentary c (setAllFields gs tid now imgId d))
    (insertedDoc gs tid now imgId c) store

/-- Every observable effect of one updateGame cycle. -/
structure Effects where
  wrote : Bool
  enriched : Bool
  pushed : Option Commentary
  commentaryHttpRequests : Nat
  imageCalls : Nat
  delaysMs : List Nat
deriving DecidableEq

/-- Modelled from the spec: `isCheckmate` is imported from services in
src/updateDatabase.js:20, but no definition of it exists anywhere under src;
the spec (section 4.4) only says it tests whether the fetched position is
checkmate.  The embedding therefore passes the checkmate test to updateGame as
an abstract boolean predicate on FEN strings. -/
def CheckmateTest : Type := String → Bool

/-- The enrichment-and-write path of the current updateGame
(src/updateDatabase.js:224-252), taken when no stored record exists or the
stored FEN differs: synthesize a deterministic commentary on checkmate
(lines 226-230, no external call), otherwise run the retry loop; if the retry
loop rethrows, the catch at line 254 swallows the error and the updateOne at
line 252 is never reached; otherwise push the commentary (if any), call the
image backend (only when a commentary was obtained; `img` is its returned
media id, `none` on failure), and perform the single upsert. -/
def updateGameGen (mate : CheckmateTest) (api : Nat → ApiResponse)
    (img : Option String) (tid : String) (now : Nat)
    (store : List StoredGame) (gs : GameState) : List StoredGame × Effects :=
  if mate gs.latestFEN then
    let c : Commentary :=
      { commentary := "The game has ended in checkmate. "
          ++ (if gs.result == "1-0" then "White" else "Black") ++ " wins."
        stockfishEval := if gs.result == "1-0" then 100 else -100 }
    (writeFull gs tid now img (some c) store,
     { wrote := true, enriched := true, pushed := some c,
       commentaryHttpRequests := 0, imageCalls := 1, delaysMs := [] })
  else
    let tr := fetchCommentaryWithRetryHttp api gs.latestFEN
    if tr.raised then
      (store,
       { wrote := false, enriched := true, pushed := none,
         commentaryHttpRequests := tr.httpRequests, imageCalls := 0,
         delaysMs := tr.delaysMs })
    else
      (writeFull gs tid now
         (match tr.result with | some _ => img | none => none)
         tr.result store,
       { wrote := true, enriched := true, pushed := tr.result,
         commentaryHttpRequests := tr.httpRequests,
         imageCalls := match tr.result with | some _ => 1 | none => 0,
         delaysMs := tr.delaysMs })

/-- The no-enrichment path of the current updateGame: the FEN is unchanged, so
no commentary or image is generated, but the updateOne at line 252 still runs
unconditionally, writing the full `$set` (timestamp, tournamentId and all
fetched fields). -/
def updateGameNoGen (gs : GameState) (tid : String) (now : Nat)
    (store : List StoredGame) : List StoredGame × Effects :=
  (writeFull gs tid now none none store,
   { wrote := true, enriched := false, pushed := none,
     commentaryHttpRequests := 0, imageCalls := 0, delaysMs := [] })

/-- updateGame (src/updateDatabase.js:202-257), the current variant: look up
the stored record by (gameId, tournamentId); enrich iff no record exists or
the stored latestFEN differs from the fetched one (line 220); in every case
reaching line 252, perform one upsert filtered by gameId alone. -/
def updateGame (mate : CheckmateTest) (api : Nat → ApiResponse)
    (img : Option String) (tid : String) (now : Nat)
    (store : List StoredGame) (gs : GameState) : List StoredGame × Effects :=
  match findOne store gs.gameId tid with
  | none => updateGameGen mate api img tid now store gs
  | some e =>
    if e.latestFEN != gs.latestFEN then
      updateGameGen mate api img tid now store gs
    else
      updateGameNoGen gs tid now store

/-- The upsert of the part_000 updateGame (src/unnamed/part_000:132-137),
which filters by the (gameId, tournamentId) pair. -/
def writeFullV0 (gs : GameState) (tid : String) (now : Nat)
    (imgId : Option String) (c : Option Commentary)
    (store : List StoredGame) : List StoredGame :=
  updateFirst (fun d => d.gameId == gs.gameId && d.tournamentId == tid)
    (fun d => pushCommentary c (setAllFields gs tid now imgId d))
    (insertedDoc gs tid now imgId c) store

/-- The metadata-only `$set` of the part_000 updateGame
(src/unnamed/part_000:94-102): only result, isLive, lastUpdated and
tournamentId are written; every other stored field is untouched. -/
def metaSet (gs : GameState) (tid : String) (now : Nat)
    (d : StoredGame) : StoredGame :=
  { d with result := gs.result, isLive := gs.isLive, lastUpdated := now, tournamentId := tid }

/-- The document the pair-keyed upsert of part_000 would insert on its
metadata-only write.  This insertion branch is unreachable: the metadata
branch requires findOne (same pair filter) to have found a document. -/
def metaInsertDoc (gs : GameState) (tid : String) (now : Nat) : StoredGame :=
  { gameId := gs.gameId, tournamentId := tid, round := 0, latestFEN := "",
    fenBeforeLastMove := "", lastMove := "", whiteName := "", blackName := "",
    latestPGN := "", result := gs.result, isLive := gs.isLive,
    lastUpdated := now, commentaries := [], imageMediaId := none }

/-- The full-update path of the part_000 updateGame
(src/unnamed/part_000:85-137): spread all fetched fields into `$set`, run the
retry loop (no checkmate short-circuit in this variant), push the commentary
if obtained, and write through the pair-keyed upsert; a rethrown retry error
jumps to the catch at line 142, skipping the write. -/
def updateGameV0Gen (api : Nat → ApiResponse) (img : Option String)
    (tid : String) (now : Nat) (store : List StoredGame) (gs : GameState) :
    List StoredGame × Effects :=
  let tr := fetchCommentaryWithRetryHttp api gs.latestFEN
  if tr.raised then
    (store,
     { wrote := false, enriched := true, pushed := none,
       commentaryHttpRequests := tr.httpRequests, imageCalls := 0,
       delaysMs := tr.delaysMs })
  else
    (writeFullV0 gs tid now
       (match tr.result with | some _ => img | none => none)
       tr.result store,
     { wrote := true, enriched := true, pushed := tr.result,
       commentaryHttpRequests := tr.httpRequests,
       imageCalls := match tr.result with | some _ => 1 | none => 0,
       delaysMs := tr.delaysMs })

/-- updateGame of src/unnamed/part_000 (lines 67-145): the variant with the
explicit three-way decision.  FEN changed (or no record): full update with
enrichment.  FEN unchanged but result or isLive changed: `$set` only
{lastUpdated, tournamentId, result, isLive}, no enrichment, pair-keyed upsert.
Nothing changed: `shouldUpdate` stays false and no updateOne is executed
(line 132). -/
def updateGameV0 (api : Nat → ApiResponse) (img : Option String)
    (tid : String) (now : Nat) (store : List StoredGame) (gs : GameState) :
    List StoredGame × Effects :=
  match findOne store gs.gameId tid with
  | none => updateGameV0Gen api img tid now store gs
  | some e =>
    if e.latestFEN != gs.latestFEN then
      updateGameV0Gen api img tid now store gs
    else if gs.result != e.result || gs.isLive != e.isLive then
      (updateFirst (fun d => d.gameId == gs.gameId && d.tournamentId == tid)
         (metaSet gs tid now) (metaInsertDoc gs tid now) store,
       { wrote := true, enriched := false, pushed := none,
         commentaryHttpRequests := 0, imageCalls := 0, delaysMs := [] })
    else
      (store,
       { wrote := false, enriched := false, pushed := none,
         commentaryHttpRequests := 0, imageCalls := 0, delaysMs := [] })

/-- A checkmate test that never fires (concrete instantiations). -/
def mateNever : CheckmateTest := fun _ => false

/-- A checkmate test that always fires (concrete instantiations). -/
def mateAlways : CheckmateTest := fun _ => true

/-- A backend that answers every request with an invalid (missing-fields)
response, i.e. fetchCommentary yields null on every attempt. -/
def apiInvalid : Nat → ApiResponse := fun _ => ApiResponse.missingFields

/-- Concrete fetched state used by witnesses and counterexamples. -/
def gsA : GameState :=
  { gameId := "g1", round := 1, latestFEN := "FEN-A",
    fenBeforeLastMove := "FEN-0", lastMove := "e2e4", whiteName := "W",
    blackName := "B", latestPGN := "e4", result := "ongoing", isLive := true }

/-- A stored document agreeing with gsA on latestFEN, result and isLive. -/
def docA : StoredGame :=
  { gameId := "g1", tournamentId := "T", round := 1, latestFEN := "FEN-A",
    fenBeforeLastMove := "FEN-0", lastMove := "e2e4", whiteName := "W",
    blackName := "B", latestPGN := "e4", result := "ongoing", isLive := true,
    lastUpdated := 0, commentaries := [], imageMediaId := none }

/-- Fetched state for the C4 scenario: same FEN as docB, changed result and
isLive, but also a longer latestPGN than the stored one. -/
def gsB : GameState :=
  { gameId := "g1", round := 1, latestFEN := "FEN-A",
    fenBeforeLastMove := "FEN-0", lastMove := "e7e5", whiteName := "W",
    blackName := "B", latestPGN := "e4 e5", result := "1-0", isLive := false }

/-- Stored document for the C4 scenario: FEN equal to gsB's, result and
isLive different, latestPGN "e4". -/
def docB : StoredGame :=
  { gameId := "g1", tournamentId := "T", round := 1, latestFEN := "FEN-A",
    fenBeforeLastMove := "FEN-0", lastMove := "e2e4", whiteName := "W",
    blackName := "B", latestPGN := "e4", result := "ongoing", isLive := true,
    lastUpdated := 0, commentaries := [], imageMediaId := none }

/-- Stored document for the C8 scenario: same gameId as gsA but belonging to
a DIFFERENT tournament. -/
def docC : StoredGame :=
  { gameId := "g1", tournamentId := "OTHER", round := 1, latestFEN := "FEN-X",
    fenBeforeLastMove := "FEN-0", lastMove := "e2e4", whiteName := "V",
    blackName := "U", latestPGN := "d4", result := "ongoing", isLive := true,
    lastUpdated := 0, commentaries := [], imageMediaId := none }

/-- Fetched state for the C6 witness: a checkmated position won by White. -/
def gsMate : GameState :=
  { gameId := "g2", round := 1, latestFEN := "FEN-MATE",
    fenBeforeLastMove := "FEN-0", lastMove := "d8h4", whiteName := "W",
    blackName := "B", latestPGN := "f3 e5 g4 Qh4", result := "1-0",
    isLive := false }

/- ------------------------------------------------------------------ -/
/- Helper lemmas about the store model (updateOne / findOne).          -/
/- ------------------------------------------------------------------ -/

theorem updateFirst_of_none {α : Type} (p : α → Bool) (f : α → α) (ins : α) :
    ∀ l : List α, (∀ x ∈ l, p x = false) → updateFirst p f ins l = l ++ [ins] := by
  intro l
  induction l with
  | nil => intro _; rfl
  | cons d rest ih =>
    intro h
    have hd : p d = false := h d (by simp)
    simp only [updateFirst, hd, Bool.false_eq_true, if_false, List.cons_append]
    rw [ih (fun x hx => h x (List.mem_cons_of_mem _ hx))]

theorem updateFirst_append_of_none {α : Type} (p : α → Bool) (f : α → α) (ins : α) :
    ∀ l1 l2 : List α, (∀ x ∈ l1, p x = false) →
      updateFirst p f ins (l1 ++ l2) = l1 ++ updateFirst p f ins l2 := by
  intro l1
  induction l1 with
  | nil => intro l2 _; rfl
  | cons d rest ih =>
    intro l2 h
    have hd : p d = false := h d (by simp)
    simp only [List.cons_append, updateFirst, hd, Bool.false_eq_true, if_false]
    rw [List.append_eq, ih l2 (fun x hx => h x (List.mem_cons_of_mem _ hx))]

theorem updateFirst_of_find {α : Type} (p : α → Bool) (f : α → α) (ins : α) :
    ∀ (l : List α) (e : α), l.find? p = some e →
      ∃ l1 l2, l = l1 ++ e :: l2 ∧ (∀ x ∈ l1, p x = false) ∧
        updateFirst p f ins l = l1 ++ f e :: l2 := by
  intro l
  induction l with
  | nil => intro e h; simp [List.find?] at h
  | cons d rest ih =>
    intro e h
    by_cases hd : p d = true
    · rw [List.find?_cons_of_pos _ hd] at h
      obtain rfl : d = e := by injection h
      exact ⟨[], rest, by simp, by simp, by simp [updateFirst, hd]⟩
    · have hd' : p d = false := by
        cases hpd : p d
        · rfl
        · exact absurd hpd hd
      rw [List.find?_cons_of_neg _ (by simp [hd'])] at h
      obtain ⟨l1, l2, hl, hall, hupd⟩ := ih e h
      refine ⟨d :: l1, l2, by simp [hl], ?_, ?_⟩
      · intro x hx
        rcases List.mem_cons.mp hx with rfl | hx'
        · exact hd'
        · exact hall x hx'
      · simp only [updateFirst, hd', Bool.false_eq_true, if_false, List.cons_append]
        rw [hupd]

theorem updateFirst_length_of_mem {α : Type} (p : α → Bool) (f : α → α) (ins : α) :
    ∀ l : List α, (∃ x ∈ l, p x = true) →
      (updateFirst p f ins l).length = l.length := by
  intro l
  induction l with
  | nil => intro h; simp at h
  | cons d rest ih =>
    intro h
    by_cases hd : p d = true
    · simp [updateFirst, hd]
    · have hd' : p d = false := by
        cases hpd : p d
        · rfl
        · exact absurd hpd hd
      simp only [updateFirst, hd', Bool.false_eq_true, if_false, List.length_cons]
      obtain ⟨x, hx, hpx⟩ := h
      rcases List.mem_cons.mp hx with rfl | hx'
      · exact absurd hpx hd
      · rw [ih ⟨x, hx', hpx⟩]

theorem find?_append_of_none {α : Type} (q : α → Bool) :
    ∀ l1 l2 : List α, (∀ x ∈ l1, q x = false) →
      (l1 ++ l2).find? q = l2.find? q := by
  intro l1
  induction l1 with
  | nil => intro l2 _; rfl
  | cons d rest ih =>
    intro l2 h
    have hd : q d = false := h d (by simp)
    simp only [List.cons_append]
    rw [List.find?_cons_of_neg _ (by simp [hd])]
    exact ih l2 (fun x hx => h x (List.mem_cons_of_mem _ hx))

theorem find?_updateFirst {α : Type} (p q : α → Bool) (f : α → α) (ins : α)
    (hq : ∀ x, q x = true → p x = true)
    (hf : ∀ x, p x = true → q (f x) = true)
    (hins : q ins = true) :
    ∀ l : List α, (updateFirst p f ins l).find? q =
      some (match l.find? p with | some x => f x | none => ins) := by
  intro l
  induction l with
  | nil => simp [updateFirst, List.find?, hins]
  | cons d rest ih =>
    by_cases hd : p d = true
    · have hqd : q (f d) = true := hf d hd
      simp only [updateFirst, hd, if_true]
      rw [List.find?_cons_of_pos _ hqd, List.find?_cons_of_pos _ hd]
    · have hd' : p d = false := by
        cases hpd : p d
        · rfl
        · exact absurd hpd hd
      have hqd : q d = false := by
        cases hqd' : q d
        · rfl
        · exact absurd (hq d hqd') hd
      simp only [updateFirst, hd', Bool.false_eq_true, if_false]
      rw [List.find?_cons_of_neg _ (by simp [hqd]),
        List.find?_cons_of_neg _ (by simp [hd'])]
      exact ih

/- ------------------------------------------------------------------ -/
/- Helper lemmas about the retry loop.                                 -/
/- ------------------------------------------------------------------ -/

theorem retryAux_raised_false (att : Nat → AttemptOutcome) (req : Nat → Nat)
    (h : ∀ k, att k ≠ AttemptOutcome.thrown) :
    ∀ remaining i delays reqs,
      (fetchCommentaryWithRetryAux att req remaining i delays reqs).raised = false := by
  intro remaining
  induction remaining with
  | zero => intro i delays reqs; rfl
  | succ n ih =>
    intro i delays reqs
    cases hatt : att i with
    | value c =>
      cases c with
      | none => simp only [fetchCommentaryWithRetryAux, hatt]; exact ih _ _ _
      | some entry => simp only [fetchCommentaryWithRetryAux, hatt]
    | thrown => exact absurd hatt (h i)

theorem retryAux_allNull (att : Nat → AttemptOutcome) (req : Nat → Nat)
    (h : ∀ k, att k = AttemptOutcome.value none) :
    ∀ remaining i delays reqs,
      (fetchCommentaryWithRetryAux att req remaining i delays reqs).result = none ∧
      (fetchCommentaryWithRetryAux att req remaining i delays reqs).raised = false ∧
      (fetchCommentaryWithRetryAux att req remaining i delays reqs).attempts = i + remaining ∧
      (fetchCommentaryWithRetryAux att req remaining i delays reqs).delaysMs = delays := by
  intro remaining
  induction remaining with
  | zero => intro i delays reqs; exact ⟨rfl, rfl, rfl, rfl⟩
  | succ n ih =>
    intro i delays reqs
    simp only [fetchCommentaryWithRetryAux, h i]
    obtain ⟨h1, h2, h3, h4⟩ := ih (i + 1) delays (reqs + req i)
    exact ⟨h1, h2, by omega, h4⟩

theorem attemptVia_ne_thrown (api : Nat → ApiResponse) (fen : String) :
    ∀ k, attemptVia api fen k ≠ AttemptOutcome.thrown := by
  intro k h
  simp [attemptVia] at h

theorem attemptVia_of_invalid (api : Nat → ApiResponse) (fen : String)
    (h : ∀ k, (api k).valid = false) :
    ∀ k, attemptVia api fen k = AttemptOutcome.value none := by
  intro k
  have hk := h k
  cases hr : api k with
  | success t e => rw [hr] at hk; simp [ApiResponse.valid] at hk
  | errorField =>
    by_cases hfen : fen = startingPositionFEN <;>
      simp [attemptVia, fetchCommentary, hfen, hr]
  | missingFields =>
    by_cases hfen : fen = startingPositionFEN <;>
      simp [attemptVia, fetchCommentary, hfen, hr]
  | networkError =>
    by_cases hfen : fen = startingPositionFEN <;>
      simp [attemptVia, fetchCommentary, hfen, hr]

theorem retryHttp_raised_false (api : Nat → ApiResponse) (fen : String) :
    (fetchCommentaryWithRetryHttp api fen).raised = false :=
  retryAux_raised_false _ _ (attemptVia_ne_thrown api fen) 3 0 [] 0

theorem retryHttp_invalid (api : Nat → ApiResponse) (fen : String)
    (h : ∀ k, (api k).valid = false) :
    (fetchCommentaryWithRetryHttp api fen).result = none ∧
    (fetchCommentaryWithRetryHttp api fen).raised = false ∧
    (fetchCommentaryWithRetryHttp api fen).attempts = 3 ∧
    (fetchCommentaryWithRetryHttp api fen).delaysMs = [] := by
  have := retryAux_allNull (attemptVia api fen) (requestsVia api fen)
    (attemptVia_of_invalid api fen h) 3 0 [] 0
  exact ⟨this.1, this.2.1, this.2.2.1, this.2.2.2⟩

/- ------------------------------------------------------------------ -/
/- Branch-reduction lemmas for the two updateGame variants.            -/
/- ------------------------------------------------------------------ -/

theorem updateGame_eq_gen_of_none (mate : CheckmateTest) (api : Nat → ApiResponse)
    (img : Option String) (tid : String) (now : Nat) (store : List StoredGame)
    (gs : GameState) (hfind : findOne store gs.gameId tid = none) :
    updateGame mate api img tid now store gs =
      updateGameGen mate api img tid now store gs := by
  simp [updateGame, hfind]

theorem updateGame_eq_gen_of_ne (mate : CheckmateTest) (api : Nat → ApiResponse)
    (img : Option String) (tid : String) (now : Nat) (store : List StoredGame)
    (gs : GameState) (e : StoredGame)
    (hfind : findOne store gs.gameId tid = some e)
    (hne : e.latestFEN ≠ gs.latestFEN) :
    updateGame mate api img tid now store gs =
      updateGameGen mate api img tid now store gs := by
  simp [updateGame, hfind, hne]

theorem updateGame_eq_noGen (mate : CheckmateTest) (api : Nat → ApiResponse)
    (img : Option String) (tid : String) (now : Nat) (store : List StoredGame)
    (gs : GameState) (e : StoredGame)
    (hfind : findOne store gs.gameId tid = some e)
    (hfen : e.latestFEN = gs.latestFEN) :
    updateGame mate api img tid now store gs = updateGameNoGen gs tid now store := by
  simp [updateGame, hfind, hfen]

theorem updateGameGen_wrote (mate : CheckmateTest) (api : Nat → ApiResponse)
    (img : Option String) (tid : String) (now : Nat) (store : List StoredGame)
    (gs : GameState) :
    (updateGameGen mate api img tid now store gs).2.wrote = true ∧
    (updateGameGen mate api img tid now store gs).2.enriched = true := by
  unfold updateGameGen
  by_cases hm : mate gs.latestFEN
  · simp [hm]
  · simp [hm, retryHttp_raised_false]

theorem updateGameV0_eq_gen_of_none (api : Nat → ApiResponse)
    (img : Option String) (tid : String) (now : Nat) (store : List StoredGame)
    (gs : GameState) (hfind : findOne store gs.gameId tid = none) :
    updateGameV0 api img tid now store gs =
      updateGameV0Gen api img tid now store gs := by
  simp [updateGameV0, hfind]

theorem updateGameV0_eq_gen_of_ne (api : Nat → ApiResponse)
    (img : Option String) (tid : String) (now : Nat) (store : List StoredGame)
    (gs : GameState) (e : StoredGame)
    (hfind : findOne store gs.gameId tid = some e)
    (hne : e.latestFEN ≠ gs.latestFEN) :
    updateGameV0 api img tid now store gs =
      updateGameV0Gen api img tid now store gs := by
  simp [updateGameV0, hfind, hne]

theorem updateGameV0_eq_meta (api : Nat → ApiResponse)
    (img : Option String) (tid : String) (now : Nat) (store : List StoredGame)
    (gs : GameState) (e : StoredGame)
    (hfind : findOne store gs.gameId tid = some e)
    (hfen : e.latestFEN = gs.latestFEN)
    (hmeta : gs.result ≠ e.result ∨ gs.isLive ≠ e.isLive) :
    updateGameV0 api img tid now store gs =
      (updateFirst (fun d => d.gameId == gs.gameId && d.tournamentId == tid)
         (metaSet gs tid now) (metaInsertDoc gs tid now) store,
       { wrote := true, enriched := false, pushed := none,
         commentaryHttpRequests := 0, imageCalls := 0, delaysMs := [] }) := by
  have hcond : (gs.result != e.result || gs.isLive != e.isLive) = true := by
    rcases hmeta with h | h
    · simp [bne_iff_ne, h]
    · simp [bne_iff_ne, h]
  simp [updateGameV0, hfind, hfen, hcond]

theorem updateGameV0_eq_noChange (api : Nat → ApiResponse)
    (img : Option String) (tid : String) (now : Nat) (store : List StoredGame)
    (gs : GameState) (e : StoredGame)
    (hfind : findOne store gs.gameId tid = some e)
    (hfen : e.latestFEN = gs.latestFEN)
    (hres : gs.result = e.result) (hlive : gs.isLive = e.isLive) :
    updateGameV0 api img tid now store gs =
      (store,
       { wrote := false, enriched := false, pushed := none,
         commentaryHttpRequests := 0, imageCalls := 0, delaysMs := [] }) := by
  simp [updateGameV0, hfind, hfen, hres, hlive]

theorem updateGameV0Gen_wrote (api : Nat → ApiResponse) (img : Option String)
    (tid : String) (now : Nat) (store : List StoredGame) (gs : GameState) :
    (updateGameV0Gen api img tid now store gs).2.wrote = true ∧
    (updateGameV0Gen api img tid now store gs).2.enriched = true := by
  unfold updateGameV0Gen
  simp [retryHttp_raised_false]

/- ------------------------------------------------------------------ -/
/- Helper lemmas about getLatestRoundNumber.                           -/
/- ------------------------------------------------------------------ -/

theorem foldl_roundStep_snd :
    ∀ (l : List Round) (a k : Nat), (l.foldl roundStep (a, k)).2 = k + l.length := by
  intro l
  induction l with
  | nil => intro a k; simp
  | cons r rest ih =>
    intro a k
    simp only [List.foldl_cons, roundStep]
    rw [ih]
    simp only [List.length_cons]
    omega

theorem getLatestRoundNumber_append (l : List Round) (r : Round) :
    getLatestRoundNumber (l ++ [r]) =
      if r.count > 0 then l.length + 1 else getLatestRoundNumber l := by
  unfold getLatestRoundNumber
  rw [List.foldl_append]
  simp only [List.foldl_cons, List.foldl_nil, roundStep]
  rw [foldl_roundStep_snd]
  simp

theorem getLatestRoundNumber_last_pos :
    ∀ (l : List Round) (i : Nat), i < l.length →
      0 < (l.getD i { count := 0, live := 0 }).count →
      (∀ j, i < j → j < l.length → (l.getD j { count := 0, live := 0 }).count = 0) →
      getLatestRoundNumber l = i + 1 := by
  intro l
  induction l using List.reverseRecOn with
  | nil => intro i hi _ _; simp at hi
  | append_singleton l r ih =>
    intro i hi hpos hafter
    rw [List.length_append, List.length_singleton] at hi
    have hgetr : (l ++ [r]).getD l.length { count := 0, live := 0 } = r := by
      rw [List.getD_append_right _ _ _ _ (le_refl _)]
      simp [List.getD]
    by_cases hil : i = l.length
    · subst hil
      rw [hgetr] at hpos
      rw [getLatestRoundNumber_append]
      simp [hpos]
    · have hi' : i < l.length := by omega
      have hr0 : r.count = 0 := by
        have h := hafter l.length (by omega)
          (by rw [List.length_append, List.length_singleton]; omega)
        rwa [hgetr] at h
      rw [getLatestRoundNumber_append, hr0]
      simp only [gt_iff_lt, Nat.lt_irrefl, if_false]
      apply ih i hi'
      · rwa [List.getD_append _ _ _ _ hi'] at hpos
      · intro j hj hjl
        have h := hafter j hj
          (by rw [List.length_append, List.length_singleton]; omega)
        rwa [List.getD_append _ _ _ _ hjl] at h

theorem getLatestRoundNumber_all_zero :
    ∀ l : List Round, (∀ x ∈ l, x.count = 0) → getLatestRoundNumber l = 0 := by
  have aux : ∀ (l : List Round) (a k : Nat), (∀ x ∈ l, x.count = 0) →
      (l.foldl roundStep (a, k)).1 = a := by
    intro l
    induction l with
    | nil => intro a k _; rfl
    | cons r rest ih =>
      intro a k h
      have hr : r.count = 0 := h r (by simp)
      simp only [List.foldl_cons, roundStep, hr]
      simp only [gt_iff_lt, Nat.lt_irrefl, if_false]
      exact ih a (k + 1) (fun x hx => h x (List.mem_cons_of_mem _ hx))
  intro l h
  exact aux l 0 0 h

theorem getLatestRoundNumber_map (g : Round → Round)
    (hg : ∀ r, (g r).count = r.count) :
    ∀ l : List Round, getLatestRoundNumber (l.map g) = getLatestRoundNumber l := by
  have aux : ∀ (l : List Round) (init : Nat × Nat),
      (l.map g).foldl roundStep init = l.foldl roundStep init := by
    intro l
    induction l with
    | nil => intro init; rfl
    | cons r rest ih =>
      intro init
      simp only [List.map_cons, List.foldl_cons]
      rw [show roundStep init (g r) = roundStep init r by simp [roundStep, hg r]]
      exact ih _
  intro l
  unfold getLatestRoundNumber
  rw [aux]

/- ------------------------------------------------------------------ -/
/- C5 : round selection in getLatestRoundNumber.                       -/
/- ------------------------------------------------------------------ -/

/-- C5 counterexample: the claim says latestRoundNumber prefers a round with
live activity over one that merely has a nonzero game count, so on rounds
[(count 5, live 0), (count 0, live 2)] it would have to return 2 (the live
round).  getLatestRoundNumber (src/services.js:49-64) only looks at `count`
and returns 1 here. -/
theorem c5_counterexample :
    getLatestRoundNumber [{ count := 5, live := 0 }, { count := 0, live := 2 }] = 1 ∧
    (1 : Nat) ≠ 2 := by
  constructor
  · decide
  · decide

/-- C5 (amended): getLatestRoundNumber returns the highest 1-based round index
whose recorded-game count is nonzero (0 when every count is zero); the live
field is never consulted (the function is invariant under arbitrary changes to
it); on the spec's example rounds it returns 2, but because round 2 has a
nonzero count, not because it is live. -/
theorem c5_amended :
    (∀ (rounds : List Round) (i : Nat), i < rounds.length →
       0 < (rounds.getD i { count := 0, live := 0 }).count →
       (∀ j, i < j → j < rounds.length →
          (rounds.getD j { count := 0, live := 0 }).count = 0) →
       getLatestRoundNumber rounds = i + 1) ∧
    (∀ rounds : List Round, (∀ x ∈ rounds, x.count = 0) →
       getLatestRoundNumber rounds = 0) ∧
    (∀ g : Round → Round, (∀ r, (g r).count = r.count) →
       ∀ rounds : List Round,
         getLatestRoundNumber (rounds.map g) = getLatestRoundNumber rounds) ∧
    getLatestRoundNumber
      [{ count := 5, live := 0 }, { count := 3, live := 2 },
       { count := 0, live := 0 }] = 2 :=
  ⟨getLatestRoundNumber_last_pos, getLatestRoundNumber_all_zero,
   fun g hg => getLatestRoundNumber_map g hg, by decide⟩

/-- C5 witness: the amended theorem applied at the concrete round list
[(count 0, live 5)], discharging its hypothesis, gives result 0. -/
theorem c5_witness :
    getLatestRoundNumber [{ count := 0, live := 5 }] = 0 :=
  c5_amended.2.1 [{ count := 0, live := 5 }] (by decide)

/- ------------------------------------------------------------------ -/
/- C7 : standardizeResult normalization.                               -/
/- ------------------------------------------------------------------ -/

/-- C7: standardizeResult is total over the feed's result field and never
fails: WHITEWIN maps to 1-0, BLACKWIN to 0-1, DRAW to 1/2-1/2, the three
already-standard strings map to themselves, null maps to "ongoing", any value
whose uppercasing is outside the recognized vocabulary (e.g. "resigned") maps
to "unknown", and every output lies in the documented five-value set. -/
theorem c7_standardizeResult_total :
    standardizeResult (some "WHITEWIN") = "1-0" ∧
    standardizeResult (some "BLACKWIN") = "0-1" ∧
    standardizeResult (some "DRAW") = "1/2-1/2" ∧
    standardizeResult (some "1-0") = "1-0" ∧
    standardizeResult (some "0-1") = "0-1" ∧
    standardizeResult (some "1/2-1/2") = "1/2-1/2" ∧
    standardizeResult none = "ongoing" ∧
    standardizeResult (some "resigned") = "unknown" ∧
    (∀ s : String,
       toUpperAscii s ∉ ["WHITEWIN", "BLACKWIN", "DRAW", "1-0", "0-1", "1/2-1/2"] →
       standardizeResult (some s) = "unknown") ∧
    (∀ x : Option String,
       standardizeResult x ∈ ["1-0", "0-1", "1/2-1/2", "ongoing", "unknown"]) := by
  refine ⟨by decide, by decide, by decide, by decide, by decide, by decide,
    rfl, by decide, ?_, ?_⟩
  · intro s hmem
    simp only [standardizeResult]
    split_ifs with h1 h2 h3 h4 h5 h6
    · exact absurd (by rw [h1]; decide) hmem
    · exact absurd (by rw [h2]; decide) hmem
    · exact absurd (by rw [h3]; decide) hmem
    · exact absurd (by rw [h4]; decide) hmem
    · exact absurd (by rw [h5]; decide) hmem
    · exact absurd (by rw [h6]; decide) hmem
    · rfl
  · intro x
    cases x with
    | none => simp [standardizeResult]
    | some s =>
      simp only [standardizeResult]
      split_ifs <;> simp

/-- C7 witness: the catch-all clause of the theorem applied at the concrete
input "resigned", discharging its hypothesis by computation. -/
theorem c7_witness : standardizeResult (some "resigned") = "unknown" :=
  (c7_standardizeResult_total.2.2.2.2.2.2.2.2.1) "resigned" (by decide)

/- ------------------------------------------------------------------ -/
/- More shared helpers: the retry loop at the starting position, and   -/
/- the enrichment path under an always-invalid backend.                -/
/- ------------------------------------------------------------------ -/

theorem retryHttp_startpos (api : Nat → ApiResponse) :
    fetchCommentaryWithRetryHttp api startingPositionFEN =
      { result := none, raised := false, attempts := 3, delaysMs := [],
        httpRequests := 0 } :=
  rfl

theorem apiInvalid_invalid : ∀ k, (apiInvalid k).valid = false := fun _ => rfl

theorem updateGameGen_invalid (mate : CheckmateTest) (api : Nat → ApiResponse)
    (img : Option String) (tid : String) (now : Nat) (store : List StoredGame)
    (gs : GameState) (hmate : mate gs.latestFEN = false)
    (hinv : ∀ k, (api k).valid = false) :
    updateGameGen mate api img tid now store gs =
      (writeFull gs tid now none none store,
       { wrote := true, enriched := true, pushed := none,
         commentaryHttpRequests :=
           (fetchCommentaryWithRetryHttp api gs.latestFEN).httpRequests,
         imageCalls := 0, delaysMs := [] }) := by
  obtain ⟨hres, hraised, _, hdel⟩ := retryHttp_invalid api gs.latestFEN hinv
  simp [updateGameGen, hmate, hres, hraised, hdel]

/- ------------------------------------------------------------------ -/
/- C10 : starting-position short-circuit of fetchCommentary.           -/
/- ------------------------------------------------------------------ -/

/-- C10: fetchCommentary at the standard starting position returns null
without issuing any HTTP request (src/services.js:443-447); the retry loop
then makes 3 null attempts, issues 0 requests and returns null; and an
updateGame cycle for a game whose latestFEN is the starting position (which
is not checkmate, so the synthesis branch is off) never appends a commentary
entry and never contacts the commentary service. -/
theorem c10_startpos_no_commentary :
    (∀ resp : ApiResponse, fetchCommentary resp startingPositionFEN = (none, 0)) ∧
    (∀ api : Nat → ApiResponse,
       fetchCommentaryWithRetryHttp api startingPositionFEN =
         { result := none, raised := false, attempts := 3, delaysMs := [],
           httpRequests := 0 }) ∧
    (∀ (mate : CheckmateTest) (api : Nat → ApiResponse) (img : Option String)
       (tid : String) (now : Nat) (store : List StoredGame) (gs : GameState),
       gs.latestFEN = startingPositionFEN → mate gs.latestFEN = false →
       (updateGame mate api img tid now store gs).2.pushed = none ∧
       (updateGame mate api img tid now store gs).2.commentaryHttpRequests = 0) := by
  refine ⟨fun resp => by simp [fetchCommentary], retryHttp_startpos, ?_⟩
  intro mate api img tid now store gs hsp hmate
  have htr := retryHttp_startpos api
  have hgen : ∀ store0 : List StoredGame,
      (updateGameGen mate api img tid now store0 gs).2.pushed = none ∧
      (updateGameGen mate api img tid now store0 gs).2.commentaryHttpRequests = 0 := by
    intro store0
    have hres : (fetchCommentaryWithRetryHttp api gs.latestFEN).result = none := by
      rw [hsp, htr]
    have hraised : (fetchCommentaryWithRetryHttp api gs.latestFEN).raised = false := by
      rw [hsp, htr]
    have hreq : (fetchCommentaryWithRetryHttp api gs.latestFEN).httpRequests = 0 := by
      rw [hsp, htr]
    simp [updateGameGen, hmate, hres, hraised, hreq]
  cases hfind : findOne store gs.gameId tid with
  | none => rw [updateGame_eq_gen_of_none mate api img tid now store gs hfind]; exact hgen store
  | some e =>
    by_cases hfen : e.latestFEN = gs.latestFEN
    · rw [updateGame_eq_noGen mate api img tid now store gs e hfind hfen]
      exact ⟨rfl, rfl⟩
    · rw [updateGame_eq_gen_of_ne mate api img tid now store gs e hfind hfen]
      exact hgen store

/-- C10 witness: the third clause of the theorem applied at a concrete
starting-position cycle, discharging its hypotheses. -/
theorem c10_witness :
    (updateGame mateNever apiInvalid none "T" 4 []
       { gsA with latestFEN := startingPositionFEN }).2.pushed = none ∧
    (updateGame mateNever apiInvalid none "T" 4 []
       { gsA with latestFEN := startingPositionFEN }).2.commentaryHttpRequests = 0 :=
  c10_startpos_no_commentary.2.2 mateNever apiInvalid none "T" 4 []
    { gsA with latestFEN := startingPositionFEN } rfl rfl

/- ------------------------------------------------------------------ -/
/- C3 : retry exhaustion on invalid/empty responses.                   -/
/- ------------------------------------------------------------------ -/

/-- C3 counterexample: with a backend that returns an invalid/empty response
on every attempt, fetchCommentaryWithRetry (src/updateDatabase.js:73-131)
makes exactly 3 attempts but awaits NO backoff delay at all — the null branch
hits `continue` at line 87, skipping the `5000 * (i + 1)` wait, which the
code only performs on thrown errors — and it returns null to the caller
(line 130) instead of raising.  The claim's asserted delays of 5s and 10s and
its raised failure are therefore false at this input. -/
theorem c3_counterexample :
    (fetchCommentaryWithRetryHttp apiInvalid "FEN-A").attempts = 3 ∧
    (fetchCommentaryWithRetryHttp apiInvalid "FEN-A").delaysMs = [] ∧
    (fetchCommentaryWithRetryHttp apiInvalid "FEN-A").delaysMs ≠ [5000, 10000] ∧
    (fetchCommentaryWithRetryHttp apiInvalid "FEN-A").raised = false ∧
    (fetchCommentaryWithRetryHttp apiInvalid "FEN-A").result = none := by
  refine ⟨rfl, rfl, by decide, rfl, rfl⟩

/-- C3 (amended): if the commentary backend returns an invalid/empty (null)
response on every attempt, fetchCommentaryWithRetry makes exactly 3 attempts
with NO inter-attempt delay (the linear 5s·i backoff applies only to thrown
errors), and after the final attempt it returns null to its caller rather
than raising; the resulting FullUpdate is still persisted without a new
commentary entry. -/
theorem c3_amended (api : Nat → ApiResponse) (fen : String)
    (hinv : ∀ k, (api k).valid = false) :
    (fetchCommentaryWithRetryHttp api fen).attempts = 3 ∧
    (fetchCommentaryWithRetryHttp api fen).delaysMs = [] ∧
    (fetchCommentaryWithRetryHttp api fen).raised = false ∧
    (fetchCommentaryWithRetryHttp api fen).result = none ∧
    (∀ (mate : CheckmateTest) (img : Option String) (tid : String) (now : Nat)
       (store : List StoredGame) (gs : GameState),
       mate gs.latestFEN = false →
       (findOne store gs.gameId tid = none ∨
         (∃ e, findOne store gs.gameId tid = some e ∧ e.latestFEN ≠ gs.latestFEN)) →
       (updateGame mate api img tid now store gs).2.wrote = true ∧
       (updateGame mate api img tid now store gs).2.pushed = none) := by
  obtain ⟨hres, hraised, hatt, hdel⟩ := retryHttp_invalid api fen hinv
  refine ⟨hatt, hdel, hraised, hres, ?_⟩
  intro mate img tid now store gs hmate hfull
  have hug : updateGame mate api img tid now store gs =
      updateGameGen mate api img tid now store gs := by
    rcases hfull with h | ⟨e, he, hne⟩
    · exact updateGame_eq_gen_of_none mate api img tid now store gs h
    · exact updateGame_eq_gen_of_ne mate api img tid now store gs e he hne
  rw [hug, updateGameGen_invalid mate api img tid now store gs hmate hinv]
  exact ⟨rfl, rfl⟩

/-- C3 witness: the amended theorem applied at the all-invalid backend and a
concrete FEN, discharging its hypothesis. -/
theorem c3_witness :
    (fetchCommentaryWithRetryHttp apiInvalid "FEN-B").attempts = 3 ∧
    (fetchCommentaryWithRetryHttp apiInvalid "FEN-B").delaysMs = [] :=
  ⟨(c3_amended apiInvalid "FEN-B" apiInvalid_invalid).1,
   (c3_amended apiInvalid "FEN-B" apiInvalid_invalid).2.1⟩

/- ------------------------------------------------------------------ -/
/- C6 : checkmate short-circuit of the enrichment path.                -/
/- ------------------------------------------------------------------ -/

/-- C6: on the enrichment path (no stored record, or stored FEN differs),
when the fetched position is checkmate updateGame synthesizes the
deterministic commentary of src/updateDatabase.js:226-230 — evaluation +100
when result is 1-0 and −100 when result is 0-1 — and makes no call to the
external commentary service.  The checkmate test itself is the abstract
predicate `mate` standing for the isCheckmate import that is absent from
src (modelled from the spec). -/
theorem c6_checkmate_shortcircuit (mate : CheckmateTest)
    (api : Nat → ApiResponse) (img : Option String) (tid : String) (now : Nat)
    (store : List StoredGame) (gs : GameState)
    (hmate : mate gs.latestFEN = true)
    (hfull : findOne store gs.gameId tid = none ∨
      ∃ e, findOne store gs.gameId tid = some e ∧ e.latestFEN ≠ gs.latestFEN) :
    (updateGame mate api img tid now store gs).2.commentaryHttpRequests = 0 ∧
    (gs.result = "1-0" →
       (updateGame mate api img tid now store gs).2.pushed =
         some { commentary := "The game has ended in checkmate. White wins.",
                stockfishEval := 100 }) ∧
    (gs.result = "0-1" →
       (updateGame mate api img tid now store gs).2.pushed =
         some { commentary := "The game has ended in checkmate. Black wins.",
                stockfishEval := -100 }) := by
  have hug : updateGame mate api img tid now store gs =
      updateGameGen mate api img tid now store gs := by
    rcases hfull with h | ⟨e, he, hne⟩
    · exact updateGame_eq_gen_of_none mate api img tid now store gs h
    · exact updateGame_eq_gen_of_ne mate api img tid now store gs e he hne
  rw [hug]
  refine ⟨?_, ?_, ?_⟩
  · simp [updateGameGen, hmate]
  · intro hres; simp [updateGameGen, hmate, hres]
  · intro hres; simp [updateGameGen, hmate, hres]

/-- C6 witness: the theorem applied at a concrete checkmated 1-0 state with
an empty store, discharging both hypotheses. -/
theorem c6_witness :
    (updateGame mateAlways apiInvalid none "T" 9 [] gsMate).2.commentaryHttpRequests = 0 ∧
    (updateGame mateAlways apiInvalid none "T" 9 [] gsMate).2.pushed =
      some { commentary := "The game has ended in checkmate. White wins.",
             stockfishEval := 100 } :=
  ⟨(c6_checkmate_shortcircuit mateAlways apiInvalid none "T" 9 [] gsMate rfl
      (Or.inl rfl)).1,
   (c6_checkmate_shortcircuit mateAlways apiInvalid none "T" 9 [] gsMate rfl
      (Or.inl rfl)).2.1 rfl⟩

/- ------------------------------------------------------------------ -/
/- More shared helpers: the shape of the store after a cycle.          -/
/- ------------------------------------------------------------------ -/

theorem updateGameGen_fst (mate : CheckmateTest) (api : Nat → ApiResponse)
    (img : Option String) (tid : String) (now : Nat) (store : List StoredGame)
    (gs : GameState) :
    ∃ imgId c0, (updateGameGen mate api img tid now store gs).1 =
      writeFull gs tid now imgId c0 store := by
  unfold updateGameGen
  by_cases hm : mate gs.latestFEN
  · simp only [hm, if_true]
    exact ⟨img, _, rfl⟩
  · have hr := retryHttp_raised_false api gs.latestFEN
    simp only [hm, Bool.false_eq_true, if_false, hr]
    exact ⟨_, _, rfl⟩

theorem updateGame_fst_writeFull (mate : CheckmateTest) (api : Nat → ApiResponse)
    (img : Option String) (tid : String) (now : Nat) (store : List StoredGame)
    (gs : GameState) :
    ∃ imgId c0, (updateGame mate api img tid now store gs).1 =
      writeFull gs tid now imgId c0 store := by
  cases hfind : findOne store gs.gameId tid with
  | none =>
    rw [updateGame_eq_gen_of_none mate api img tid now store gs hfind]
    exact updateGameGen_fst mate api img tid now store gs
  | some e =>
    by_cases hfen : e.latestFEN = gs.latestFEN
    · rw [updateGame_eq_noGen mate api img tid now store gs e hfind hfen]
      exact ⟨none, none, rfl⟩
    · rw [updateGame_eq_gen_of_ne mate api img tid now store gs e hfind hfen]
      exact updateGameGen_fst mate api img tid now store gs

theorem updateGame_wrote (mate : CheckmateTest) (api : Nat → ApiResponse)
    (img : Option String) (tid : String) (now : Nat) (store : List StoredGame)
    (gs : GameState) :
    (updateGame mate api img tid now store gs).2.wrote = true := by
  cases hfind : findOne store gs.gameId tid with
  | none =>
    rw [updateGame_eq_gen_of_none mate api img tid now store gs hfind]
    exact (updateGameGen_wrote mate api img tid now store gs).1
  | some e =>
    by_cases hfen : e.latestFEN = gs.latestFEN
    · rw [updateGame_eq_noGen mate api img tid now store gs e hfind hfen]; rfl
    · rw [updateGame_eq_gen_of_ne mate api img tid now store gs e hfind hfen]
      exact (updateGameGen_wrote mate api img tid now store gs).1

theorem updateGame_insert (mate : CheckmateTest) (api : Nat → ApiResponse)
    (img : Option String) (tid : String) (now : Nat) (store : List StoredGame)
    (gs : GameState) (hnew : ∀ d ∈ store, d.gameId ≠ gs.gameId) :
    ∃ imgId c0, (updateGame mate api img tid now store gs).1 =
      store ++ [insertedDoc gs tid now imgId c0] := by
  obtain ⟨imgId, c0, h1⟩ := updateGame_fst_writeFull mate api img tid now store gs
  refine ⟨imgId, c0, ?_⟩
  rw [h1]
  unfold writeFull
  exact updateFirst_of_none _ _ _ store
    (fun x hx => beq_eq_false_iff_ne.mpr (hnew x hx))

/- ------------------------------------------------------------------ -/
/- C1 : the three-way reconciliation decision.                         -/
/- ------------------------------------------------------------------ -/

/-- C1 counterexample: a cycle whose fetched state agrees with the stored
record on latestFEN, result and isLive — a NoChange situation per the claim,
which asserts no write is performed.  The current updateGame
(src/updateDatabase.js:202-257) still executes its unconditional updateOne at
line 252: the cycle reports a write and the store is modified (the timestamp
and full `$set` are applied). -/
theorem c1_counterexample :
    docA.latestFEN = gsA.latestFEN ∧ docA.result = gsA.result ∧
    docA.isLive = gsA.isLive ∧
    (updateGame mateNever apiInvalid none "T" 1 [docA] gsA).2.wrote = true ∧
    (updateGame mateNever apiInvalid none "T" 1 [docA] gsA).1 ≠ [docA] := by
  refine ⟨rfl, rfl, rfl, rfl, by decide⟩

/-- C1 (amended): the part_000 variant of updateGame implements the claimed
three-way decision exactly — no write and no enrichment when the stored
record matches on FEN, result and isLive; a metadata-only write without
enrichment when only result/isLive differ; a full write with enrichment iff
no record exists or the FEN differs.  The current updateGame of
src/updateDatabase.js triggers enrichment under exactly the same
no-record-or-FEN-differs condition, but performs a write of all fetched
fields on every call, including when nothing changed. -/
theorem c1_amended (mate : CheckmateTest) (api : Nat → ApiResponse)
    (img : Option String) (tid : String) (now : Nat) (store : List StoredGame)
    (gs : GameState) :
    (∀ e, findOne store gs.gameId tid = some e → e.latestFEN = gs.latestFEN →
       gs.result = e.result → gs.isLive = e.isLive →
       (updateGameV0 api img tid now store gs).1 = store ∧
       (updateGameV0 api img tid now store gs).2.wrote = false ∧
       (updateGameV0 api img tid now store gs).2.enriched = false) ∧
    (∀ e, findOne store gs.gameId tid = some e → e.latestFEN = gs.latestFEN →
       (gs.result ≠ e.result ∨ gs.isLive ≠ e.isLive) →
       (updateGameV0 api img tid now store gs).2.wrote = true ∧
       (updateGameV0 api img tid now store gs).2.enriched = false ∧
       (updateGameV0 api img tid now store gs).2.pushed = none ∧
       (updateGameV0 api img tid now store gs).2.commentaryHttpRequests = 0) ∧
    ((findOne store gs.gameId tid = none ∨
       (∃ e, findOne store gs.gameId tid = some e ∧ e.latestFEN ≠ gs.latestFEN)) →
       (updateGameV0 api img tid now store gs).2.wrote = true ∧
       (updateGameV0 api img tid now store gs).2.enriched = true) ∧
    ((updateGame mate api img tid now store gs).2.wrote = true ∧
     ((updateGame mate api img tid now store gs).2.enriched = true ↔
       (findOne store gs.gameId tid = none ∨
         (∃ e, findOne store gs.gameId tid = some e ∧
            e.latestFEN ≠ gs.latestFEN)))) := by
  refine ⟨?_, ?_, ?_, updateGame_wrote mate api img tid now store gs, ?_⟩
  · intro e he hfen hres hlive
    rw [updateGameV0_eq_noChange api img tid now store gs e he hfen hres hlive]
    exact ⟨rfl, rfl, rfl⟩
  · intro e he hfen hmeta
    rw [updateGameV0_eq_meta api img tid now store gs e he hfen hmeta]
    exact ⟨rfl, rfl, rfl, rfl⟩
  · intro h
    have hv : updateGameV0 api img tid now store gs =
        updateGameV0Gen api img tid now store gs := by
      rcases h with h | ⟨e, he, hne⟩
      · exact updateGameV0_eq_gen_of_none api img tid now store gs h
      · exact updateGameV0_eq_gen_of_ne api img tid now store gs e he hne
    rw [hv]
    exact updateGameV0Gen_wrote api img tid now store gs
  · constructor
    · intro hen
      cases hfind : findOne store gs.gameId tid with
      | none => exact Or.inl rfl
      | some e =>
        by_cases hfen : e.latestFEN = gs.latestFEN
        · rw [updateGame_eq_noGen mate api img tid now store gs e hfind hfen] at hen
          simp [updateGameNoGen] at hen
        · exact Or.inr ⟨e, rfl, hfen⟩
    · intro h
      have hv : updateGame mate api img tid now store gs =
          updateGameGen mate api img tid now store gs := by
        rcases h with h | ⟨e, he, hne⟩
        · exact updateGame_eq_gen_of_none mate api img tid now store gs h
        · exact updateGame_eq_gen_of_ne mate api img tid now store gs e he hne
      rw [hv]
      exact (updateGameGen_wrote mate api img tid now store gs).2

/-- C1 witness: the NoChange clause of the amended theorem applied at the
concrete stored record docA and matching fetched state gsA, discharging every
hypothesis: the part_000 variant leaves the store untouched. -/
theorem c1_witness :
    (updateGameV0 apiInvalid none "T" 1 [docA] gsA).1 = [docA] ∧
    (updateGameV0 apiInvalid none "T" 1 [docA] gsA).2.wrote = false :=
  ⟨((c1_amended mateNever apiInvalid none "T" 1 [docA] gsA).1 docA rfl rfl rfl rfl).1,
   ((c1_amended mateNever apiInvalid none "T" 1 [docA] gsA).1 docA rfl rfl rfl rfl).2.1⟩

/- ------------------------------------------------------------------ -/
/- C4 : the frame effect of a metadata-only cycle.                     -/
/- ------------------------------------------------------------------ -/

/-- C4 counterexample: a cycle with the stored FEN unchanged and the result
changed (a MetadataUpdate situation per the claim, which asserts that all
fields other than result/isLive/timestamp are left unchanged).  The current
updateGame (src/updateDatabase.js:209-215, 252) spreads the whole fetched
GameState into `$set` on every write: the stored latestPGN "e4" is
overwritten with the fetched "e4 e5". -/
theorem c4_counterexample :
    docB.latestFEN = gsB.latestFEN ∧ docB.result ≠ gsB.result ∧
    docB.latestPGN = "e4" ∧
    ((updateGame mateNever apiInvalid none "T" 7 [docB] gsB).1.head?).map
        (fun d => d.latestPGN) = some "e4 e5" ∧
    ("e4 e5" : String) ≠ "e4" := by
  refine ⟨rfl, by decide, rfl, rfl, by decide⟩

/-- C4 (amended): in the part_000 variant a metadata-only cycle (record
found, FEN unchanged, result or isLive changed) writes exactly result,
isLive, lastUpdated and tournamentId on the matched document, leaves every
other field of it and every other document unchanged, and performs no
commentary or image generation.  In the current src/updateDatabase.js the
same condition still performs no commentary or image generation, but the
write sets ALL fetched fields, not only the two metadata fields. -/
theorem c4_amended (api : Nat → ApiResponse) (img : Option String)
    (tid : String) (now : Nat) (store : List StoredGame) (gs : GameState)
    (e : StoredGame) (hfind : findOne store gs.gameId tid = some e)
    (hfen : e.latestFEN = gs.latestFEN)
    (hmeta : gs.result ≠ e.result ∨ gs.isLive ≠ e.isLive) :
    (∃ l1 l2, store = l1 ++ e :: l2 ∧
       (updateGameV0 api img tid now store gs).1 =
         l1 ++ ({ e with result := gs.result, isLive := gs.isLive, lastUpdated := now, tournamentId := tid } :: l2)) ∧
    (updateGameV0 api img tid now store gs).2.enriched = false ∧
    (updateGameV0 api img tid now store gs).2.pushed = none ∧
    (updateGameV0 api img tid now store gs).2.commentaryHttpRequests = 0 ∧
    (updateGameV0 api img tid now store gs).2.imageCalls = 0 ∧
    (∀ mate : CheckmateTest,
       (updateGame mate api img tid now store gs).2.enriched = false ∧
       (updateGame mate api img tid now store gs).2.pushed = none ∧
       (updateGame mate api img tid now store gs).2.commentaryHttpRequests = 0 ∧
       (updateGame mate api img tid now store gs).2.imageCalls = 0 ∧
       (updateGame mate api img tid now store gs).2.wrote = true) := by
  rw [updateGameV0_eq_meta api img tid now store gs e hfind hfen hmeta]
  refine ⟨?_, rfl, rfl, rfl, rfl, ?_⟩
  · have hfind' : List.find?
        (fun d => d.gameId == gs.gameId && d.tournamentId == tid) store =
        some e := hfind
    obtain ⟨l1, l2, hl, _, hupd⟩ :=
      updateFirst_of_find
        (fun d => d.gameId == gs.gameId && d.tournamentId == tid)
        (metaSet gs tid now) (metaInsertDoc gs tid now) store e hfind'
    exact ⟨l1, l2, hl, hupd⟩
  · intro mate
    rw [updateGame_eq_noGen mate api img tid now store gs e hfind hfen]
    exact ⟨rfl, rfl, rfl, rfl, rfl⟩

/-- C4 witness: the amended theorem applied at the concrete metadata-change
scenario (docB stored, gsB fetched), discharging every hypothesis. -/
theorem c4_witness :
    (updateGame mateNever apiInvalid none "T" 7 [docB] gsB).2.enriched = false ∧
    (updateGame mateNever apiInvalid none "T" 7 [docB] gsB).2.wrote = true :=
  ⟨(((c4_amended apiInvalid none "T" 7 [docB] gsB docB rfl rfl
        (Or.inl (by decide))).2.2.2.2.2) mateNever).1,
   (((c4_amended apiInvalid none "T" 7 [docB] gsB docB rfl rfl
        (Or.inl (by decide))).2.2.2.2.2) mateNever).2.2.2.2⟩

/- ------------------------------------------------------------------ -/
/- C8 : the key of the single upsert.                                  -/
/- ------------------------------------------------------------------ -/

/-- C8 counterexample: the store holds a document with the same gameId but a
DIFFERENT tournamentId ("OTHER").  Were the upsert keyed by the
(gameId, tournamentId) pair as the claim states, this cycle (for tournament
"T", which has no stored document) would insert a second document.  The
updateOne of src/updateDatabase.js:252 filters by gameId alone: it matches
the other tournament's document and overwrites it in place — the store stays
at one document, now carrying tournamentId "T". -/
theorem c8_counterexample :
    docC.tournamentId = "OTHER" ∧
    findOne [docC] gsA.gameId "T" = none ∧
    (updateGame mateNever apiInvalid none "T" 3 [docC] gsA).1.length = 1 ∧
    (1 : Nat) ≠ 2 ∧
    ((updateGame mateNever apiInvalid none "T" 3 [docC] gsA).1.head?).map
        (fun d => d.tournamentId) = some "T" := by
  refine ⟨rfl, rfl, rfl, by decide, rfl⟩

/-- C8 (amended): persistence is a single updateOne with upsert, shared by
creation and update, and the absence of a prior document is not an error (a
new document is simply inserted) — but its filter in the current updateGame
is {gameId} alone rather than the (gameId, tournamentId) pair: a store with
no gameId match grows by exactly one document, a store with any gameId match
(whatever its tournamentId) keeps its size, and every cycle writes.  The
part_000 variant does key its upsert by the pair: with no pair match its
store grows by one document. -/
theorem c8_amended (mate : CheckmateTest) (api : Nat → ApiResponse)
    (img : Option String) (tid : String) (now : Nat) (store : List StoredGame)
    (gs : GameState) :
    ((∀ d ∈ store, d.gameId ≠ gs.gameId) →
       (updateGame mate api img tid now store gs).1.length = store.length + 1) ∧
    ((∃ d ∈ store, d.gameId = gs.gameId) →
       (updateGame mate api img tid now store gs).1.length = store.length) ∧
    (updateGame mate api img tid now store gs).2.wrote = true ∧
    ((∀ d ∈ store, ¬(d.gameId = gs.gameId ∧ d.tournamentId = tid)) →
       (updateGameV0 api img tid now store gs).1.length = store.length + 1) := by
  refine ⟨?_, ?_, updateGame_wrote mate api img tid now store gs, ?_⟩
  · intro hnew
    obtain ⟨imgId, c0, h1⟩ := updateGame_insert mate api img tid now store gs hnew
    rw [h1]
    simp
  · intro ⟨d, hd, hgid⟩
    obtain ⟨imgId, c0, h1⟩ := updateGame_fst_writeFull mate api img tid now store gs
    rw [h1]
    unfold writeFull
    exact updateFirst_length_of_mem _ _ _ store ⟨d, hd, beq_iff_eq.mpr hgid⟩
  · intro hpair
    have hfind : findOne store gs.gameId tid = none := by
      apply List.find?_eq_none.mpr
      intro x hx hqx
      apply hpair x hx
      have := Bool.and_eq_true_iff.mp hqx
      exact ⟨beq_iff_eq.mp this.1, beq_iff_eq.mp this.2⟩
    rw [updateGameV0_eq_gen_of_none api img tid now store gs hfind]
    unfold updateGameV0Gen
    have hr := retryHttp_raised_false api gs.latestFEN
    simp only [hr, Bool.false_eq_true, if_false]
    show (writeFullV0 gs tid now _ _ store).length = store.length + 1
    unfold writeFullV0
    rw [updateFirst_of_none _ _ _ store (fun x hx => by
      have hx' := hpair x hx
      cases hg : x.gameId == gs.gameId with
      | false => simp [hg]
      | true =>
        cases ht : x.tournamentId == tid with
        | false => simp [hg, ht]
        | true => exact absurd ⟨beq_iff_eq.mp hg, beq_iff_eq.mp ht⟩ hx')]
    simp

/-- C8 witness: the no-gameId-match clause of the amended theorem applied at
an empty store, discharging its hypothesis: the upsert-insert path succeeds
and yields one document. -/
theorem c8_witness :
    (updateGame mateNever apiInvalid none "T" 0 [] gsA).1.length = 1 :=
  (c8_amended mateNever apiInvalid none "T" 0 [] gsA).1 (by simp)

/- ------------------------------------------------------------------ -/
/- C2 : a FullUpdate survives exhaustion of the commentary retries.    -/
/- ------------------------------------------------------------------ -/

/-- C2: when the retry sequence exhausts all attempts against a backend whose
every response is invalid/empty, the failure is surfaced to updateGame as a
null result (the src fetchCommentary catches every backend failure and
returns null, so the rethrow branch of fetchCommentaryWithRetry is never
reached), and the FullUpdate write is still performed: the cycle is not
aborted, all fetched scalar fields are persisted with the new timestamp and
tournament id, and only the commentary entry and the image reference are
omitted (no push, no image call). -/
theorem c2_enrichment_failure (mate : CheckmateTest) (api : Nat → ApiResponse)
    (img : Option String) (tid : String) (now : Nat) (store : List StoredGame)
    (gs : GameState) (hinv : ∀ k, (api k).valid = false)
    (hmate : mate gs.latestFEN = false)
    (hfull : findOne store gs.gameId tid = none ∨
      (∃ e, findOne store gs.gameId tid = some e ∧ e.latestFEN ≠ gs.latestFEN)) :
    (updateGame mate api img tid now store gs).2.wrote = true ∧
    (updateGame mate api img tid now store gs).2.pushed = none ∧
    (updateGame mate api img tid now store gs).2.imageCalls = 0 ∧
    (∃ e2, findOne (updateGame mate api img tid now store gs).1 gs.gameId tid =
        some e2 ∧
      e2.latestFEN = gs.latestFEN ∧ e2.result = gs.result ∧
      e2.isLive = gs.isLive ∧ e2.latestPGN = gs.latestPGN ∧
      e2.lastMove = gs.lastMove ∧ e2.round = gs.round ∧
      e2.lastUpdated = now ∧ e2.tournamentId = tid) := by
  have hug : updateGame mate api img tid now store gs =
      updateGameGen mate api img tid now store gs := by
    rcases hfull with h | ⟨e, he, hne⟩
    · exact updateGame_eq_gen_of_none mate api img tid now store gs h
    · exact updateGame_eq_gen_of_ne mate api img tid now store gs e he hne
  rw [hug, updateGameGen_invalid mate api img tid now store gs hmate hinv]
  refine ⟨rfl, rfl, rfl, ?_⟩
  have hfound := find?_updateFirst
    (fun d => d.gameId == gs.gameId)
    (fun d => d.gameId == gs.gameId && d.tournamentId == tid)
    (fun d => pushCommentary none (setAllFields gs tid now none d))
    (insertedDoc gs tid now none none)
    (fun x hx => (Bool.and_eq_true_iff.mp hx).1)
    (fun x _ => by simp [pushCommentary, setAllFields])
    (by simp [insertedDoc]) store
  show ∃ e2, List.find? _ (writeFull gs tid now none none store) = some e2 ∧ _
  unfold writeFull
  rw [hfound]
  cases hfp : store.find? (fun d => d.gameId == gs.gameId) with
  | none => exact ⟨insertedDoc gs tid now none none, rfl, rfl, rfl, rfl, rfl, rfl, rfl, rfl, rfl⟩
  | some x =>
    exact ⟨pushCommentary none (setAllFields gs tid now none x), rfl, rfl, rfl,
      rfl, rfl, rfl, rfl, rfl, rfl⟩

/-- C2 witness: the theorem applied at an empty store with the all-invalid
backend, discharging every hypothesis. -/
theorem c2_witness :
    (updateGame mateNever apiInvalid none "T" 5 [] gsA).2.wrote = true ∧
    (updateGame mateNever apiInvalid none "T" 5 [] gsA).2.pushed = none :=
  ⟨(c2_enrichment_failure mateNever apiInvalid none "T" 5 [] gsA
      apiInvalid_invalid rfl (Or.inl rfl)).1,
   (c2_enrichment_failure mateNever apiInvalid none "T" 5 [] gsA
      apiInvalid_invalid rfl (Or.inl rfl)).2.1⟩

/- ------------------------------------------------------------------ -/
/- C9 : idempotence of a repeated identical cycle.                     -/
/- ------------------------------------------------------------------ -/

/-- C9: running updateGame twice on the same fetched state (so the second
cycle sees an unchanged FEN, result and isLive), starting from a store with
no document for that gameId, leaves exactly one document for the
(gameId, tournamentId) pair after the second cycle, and the commentaries
sequence of that document is exactly what it was at the end of the first
cycle — the second cycle pushes nothing and triggers no enrichment. -/
theorem c9_idempotent (mate : CheckmateTest) (api api2 : Nat → ApiResponse)
    (img img2 : Option String) (tid : String) (now1 now2 : Nat)
    (store : List StoredGame) (gs : GameState)
    (hnew : ∀ d ∈ store, d.gameId ≠ gs.gameId)
    (s1 : List StoredGame)
    (h1 : s1 = (updateGame mate api img tid now1 store gs).1) :
    ((updateGame mate api2 img2 tid now2 s1 gs).1.countP
        (fun d => d.gameId == gs.gameId && d.tournamentId == tid) = 1) ∧
    (((updateGame mate api2 img2 tid now2 s1 gs).1.find?
        (fun d => d.gameId == gs.gameId && d.tournamentId == tid)).map
        (fun d => d.commentaries) =
      (s1.find? (fun d => d.gameId == gs.gameId && d.tournamentId == tid)).map
        (fun d => d.commentaries)) ∧
    (updateGame mate api2 img2 tid now2 s1 gs).2.pushed = none ∧
    (updateGame mate api2 img2 tid now2 s1 gs).2.enriched = false := by
  obtain ⟨imgId, c0, hs1⟩ := updateGame_insert mate api img tid now1 store gs hnew
  rw [hs1] at h1
  subst h1
  have hpg : ∀ d ∈ store, (d.gameId == gs.gameId) = false :=
    fun d hd => beq_eq_false_iff_ne.mpr (hnew d hd)
  have hq : ∀ d ∈ store,
      (d.gameId == gs.gameId && d.tournamentId == tid) = false := by
    intro d hd
    simp [hpg d hd]
  have hqN : ((insertedDoc gs tid now1 imgId c0).gameId == gs.gameId &&
      (insertedDoc gs tid now1 imgId c0).tournamentId == tid) = true := by
    simp [insertedDoc]
  have hfind1 : findOne (store ++ [insertedDoc gs tid now1 imgId c0])
      gs.gameId tid = some (insertedDoc gs tid now1 imgId c0) := by
    show List.find? _ _ = _
    rw [find?_append_of_none _ store _ hq]
    exact List.find?_cons_of_pos _ hqN
  have h2 : updateGame mate api2 img2 tid now2
      (store ++ [insertedDoc gs tid now1 imgId c0]) gs =
      updateGameNoGen gs tid now2 (store ++ [insertedDoc gs tid now1 imgId c0]) :=
    updateGame_eq_noGen mate api2 img2 tid now2 _ gs _ hfind1 rfl
  rw [h2]
  have hstep : (updateGameNoGen gs tid now2
      (store ++ [insertedDoc gs tid now1 imgId c0])).1 =
      store ++ [pushCommentary none
        (setAllFields gs tid now2 none (insertedDoc gs tid now1 imgId c0))] := by
    show writeFull gs tid now2 none none _ = _
    unfold writeFull
    rw [updateFirst_append_of_none _ _ _ store _ hpg]
    simp [updateFirst, insertedDoc]
  refine ⟨?_, ?_, rfl, rfl⟩
  · rw [hstep, List.countP_append]
    rw [List.countP_eq_zero.mpr (by
      intro d hd
      simp [hq d hd])]
    simp [pushCommentary, setAllFields]
  · rw [hstep]
    rw [find?_append_of_none _ store _ hq, find?_append_of_none _ store _ hq]
    have hfM : List.find? (fun x => x.gameId == gs.gameId && x.tournamentId == tid)
        [pushCommentary none
          (setAllFields gs tid now2 none (insertedDoc gs tid now1 imgId c0))] =
        some (pushCommentary none
          (setAllFields gs tid now2 none (insertedDoc gs tid now1 imgId c0))) :=
      List.find?_cons_of_pos _ (by simp [pushCommentary, setAllFields])
    have hfN : List.find? (fun x => x.gameId == gs.gameId && x.tournamentId == tid)
        [insertedDoc gs tid now1 imgId c0] =
        some (insertedDoc gs tid now1 imgId c0) :=
      List.find?_cons_of_pos _ hqN
    rw [hfM, hfN]
    rfl

/-- C9 witness: the theorem applied at an empty store and the concrete
fetched state gsA, discharging its hypotheses: after the second identical
cycle there is exactly one (gameId, tournamentId) document and the second
cycle is not enriched. -/
theorem c9_witness :
    ((updateGame mateNever apiInvalid none "T" 1
        ((updateGame mateNever apiInvalid none "T" 0 [] gsA).1) gsA).1.countP
        (fun d => d.gameId == gsA.gameId && d.tournamentId == "T") = 1) ∧
    (updateGame mateNever apiInvalid none "T" 1
        ((updateGame mateNever apiInvalid none "T" 0 [] gsA).1) gsA).2.enriched =
      false :=
  ⟨(c9_idempotent mateNever apiInvalid apiInvalid none none "T" 0 1 [] gsA
      (by simp) _ rfl).1,
   (c9_idempotent mateNever apiInvalid apiInvalid none none "T" 0 1 [] gsA
      (by simp) _ rfl).2.2.2⟩

end LccDbUpdater
